import Mathlib

/-
Verification of the evox tracing control-flow engine
(src/evox/utils/_control_flow/loop.py and src/utils/control_flow.py).

The engine executes a user-supplied while loop (condition/body pair) or
branch (true/false pair) over tensor operands under three disciplines:
direct eager execution, trace compilation (a specialized per-arity
procedure selected from a dict keyed 1..9), and batched (vmap) execution
with predicated masked updates.

Modelling conventions:
  * a scalar tensor is a value of a type `a` (Int in concrete instances);
  * a batched operand is a list of lanes, each lane a scalar;
  * a while loop is executed with explicit fuel; running out of fuel
    models nontermination (the engine has no iteration cap of its own);
  * fallible execution returns `Except Err`; Python assertion failures,
    dict KeyErrors and TypeErrors become constructors of `Err`.
-/

namespace EvoxCF

set_option linter.unusedSectionVars false
set_option linter.unusedVariables false

/-- Failure modes of the engine: the arity assertion
(`At most 9 arguments are supported, got n` — it names the limit and the
requested count), the `loops_dict[len(x)]` KeyError, the vmap operand
type assertion (its message carries the offending type's name),
a call to a traced function with the wrong number of positional
arguments, a call passing a non-tensor where a tensor is expected,
calling `.any()` on a tuple, and fuel exhaustion (nontermination). -/
inductive Err where
  | fuelExhausted : Err
  | unsupportedArity (limit got : Nat) : Err
  | keyLookup (k : Nat) : Err
  | typeMismatch (tyName : String) : Err
  | callArity (expected got : Nat) : Err
  | condTupleNoAny : Err
deriving DecidableEq, Repr

deriving instance DecidableEq for Except

section PureLoop

variable {α : Type}

/-- Direct executor `TracingWhile.loop` (control_flow.py lines 62-80,
loop.py lines 62-84): `while self.cond(*x): x = self.body(*x); return x`.
Fuel bounds the number of body executions. -/
def loop (c : List α → Bool) (b : List α → List α) : Nat → List α → Except Err (List α)
  | 0, xs => if c xs then .error .fuelExhausted else .ok xs
  | fuel + 1, xs => if c xs then loop c b fuel (b xs) else .ok xs

/-- The common body of the nine specialized procedures `_loop1` .. `_loop9`
built by `trace_loop` / `_compile_loop_fn`: each is
`while cond(x1..xn): x1..xn = body(x1..xn); return x1..xn`, differing only
in how many positional operands are threaded. -/
def loopProc (c : List α → Bool) (b : List α → List α) : Nat → List α → Except Err (List α)
  | 0, xs => if c xs then .error .fuelExhausted else .ok xs
  | fuel + 1, xs => if c xs then loopProc c b fuel (b xs) else .ok xs

/-- `loops_dict`: the dict `{1: _loop1, ..., 9: _loop9}`; indexing it with
an operand count outside 1..9 is a KeyError. -/
def loops_dict (c : List α → Bool) (b : List α → List α) (n : Nat) :
    Option (Nat → List α → Except Err (List α)) :=
  match n with
  | 1 | 2 | 3 | 4 | 5 | 6 | 7 | 8 | 9 => some (loopProc c b)
  | _ => none

/-- The pure trace-compiled path of `trace_loop` (control_flow.py lines
82-184, loop.py `_compile_loop_fn` lines 263-371 invoked from `trace_loop`):
first the assertion `len(x) <= len(loops_dict)` (limit 9), then the
selection `loops_dict[len(x)]`, then the selected procedure runs on the
operands. -/
def trace_loop (c : List α → Bool) (b : List α → List α) (fuel : Nat) (xs : List α) :
    Except Err (List α) :=
  if xs.length ≤ 9 then
    match loops_dict c b xs.length with
    | some proc => proc fuel xs
    | none => .error (.keyLookup xs.length)
  else .error (.unsupportedArity 9 xs.length)

/-- Auxiliary: `loopProc` is the same while loop as the direct executor. -/
theorem loopProc_eq_loop (c : List α → Bool) (b : List α → List α) :
    ∀ fuel xs, loopProc c b fuel xs = loop c b fuel xs := by
  intro fuel
  induction fuel with
  | zero => intro xs; simp [loopProc, loop]
  | succ f ih =>
    intro xs
    simp only [loopProc, loop]
    by_cases h : c xs <;> simp [h, ih]

/-- Auxiliary: for operand counts 1..9 the dict yields the generic
specialized procedure. -/
theorem loops_dict_mem (c : List α → Bool) (b : List α → List α) (n : Nat)
    (h1 : 1 ≤ n) (h9 : n ≤ 9) : loops_dict c b n = some (loopProc c b) := by
  interval_cases n <;> rfl

/-- Auxiliary: with an operand count between 1 and 9 the trace-compiled
path computes exactly the direct executor's result. -/
theorem trace_loop_eq_loop (c : List α → Bool) (b : List α → List α) (fuel : Nat)
    (xs : List α) (h1 : 1 ≤ xs.length) (h9 : xs.length ≤ 9) :
    trace_loop c b fuel xs = loop c b fuel xs := by
  unfold trace_loop
  rw [loops_dict_mem c b xs.length h1 h9]
  simp [h9, loopProc_eq_loop]

/-- Auxiliary: the while loop fails only by fuel exhaustion, never with an
arity error. -/
theorem loopProc_no_arity (c : List α → Bool) (b : List α → List α) :
    ∀ fuel xs l g, loopProc c b fuel xs ≠ .error (.unsupportedArity l g) := by
  intro fuel
  induction fuel with
  | zero => intro xs l g; by_cases h : c xs <;> simp [loopProc, h]
  | succ f ih =>
    intro xs l g
    by_cases h : c xs <;> simp [loopProc, h, ih]

theorem loop_of_cond_false (c : List α → Bool) (b : List α → List α) (l : List α)
    (hc : c l = false) : ∀ fuel, loop c b fuel l = .ok l := by
  intro fuel
  cases fuel <;> simp [loop, hc]

/-- Auxiliary: a successful direct loop run is an iteration of the body
that ran while the condition held and stopped as soon as it failed. -/
theorem loop_characterize (c : List α → Bool) (b : List α → List α) :
    ∀ (fuel : Nat) (xs ys : List α), loop c b fuel xs = .ok ys →
      ∃ t, t ≤ fuel ∧ ys = b^[t] xs ∧ (∀ s, s < t → c (b^[s] xs) = true) ∧ c ys = false := by
  intro fuel
  induction fuel with
  | zero =>
    intro xs ys hok
    by_cases h : c xs
    · simp [loop, h] at hok
    · simp [loop, h] at hok
      subst hok
      exact ⟨0, Nat.le_refl 0, rfl, fun s hs => absurd hs (Nat.not_lt_zero s), by simpa using h⟩
  | succ fl ih =>
    intro xs ys hok
    by_cases h : c xs
    · simp only [loop, h, if_true] at hok
      obtain ⟨t, htle, hys, hall, hend⟩ := ih (b xs) ys hok
      refine ⟨t + 1, by omega, ?_, ?_, hend⟩
      · rw [hys, Function.iterate_succ_apply]
      · intro s hs
        cases s with
        | zero => simpa using h
        | succ s =>
          rw [Function.iterate_succ_apply]
          exact hall s (by omega)
    · simp [loop, h] at hok
      subst hok
      exact ⟨0, Nat.zero_le _, rfl, fun s hs => absurd hs (Nat.not_lt_zero s), by simpa using h⟩

end PureLoop

section Branch

variable {α : Type}

/-- Direct executor `TracingCond.cond` (control_flow.py lines 500-520):
`if cond: x = true_fn(*x) else: x = false_fn(*x); return x`. -/
def condRun (t f : List α → List α) (c : Bool) (xs : List α) : List α :=
  if c then t xs else f xs

/-- The common body of `_cond1` .. `_cond9` built by `trace_cond`
(control_flow.py lines 522-656): each is the same if/else, differing only
in the number of positional operands. -/
def condProc (t f : List α → List α) (c : Bool) (xs : List α) : List α :=
  if c then t xs else f xs

/-- `cond_dict`: the dict `{1: _cond1, ..., 9: _cond9}`. -/
def cond_dict (t f : List α → List α) (n : Nat) : Option (Bool → List α → List α) :=
  match n with
  | 1 | 2 | 3 | 4 | 5 | 6 | 7 | 8 | 9 => some (condProc t f)
  | _ => none

/-- `trace_cond`: the arity assertion, the selection from `cond_dict` by
operand count, then the compiled branch procedure on the predicate and
operands. -/
def trace_cond (t f : List α → List α) (c : Bool) (xs : List α) : Except Err (List α) :=
  if xs.length ≤ 9 then
    match cond_dict t f xs.length with
    | some proc => .ok (proc c xs)
    | none => .error (.keyLookup xs.length)
  else .error (.unsupportedArity 9 xs.length)

/-- Auxiliary: for operand counts 1..9 the trace-compiled branch computes
the direct branch. -/
theorem trace_cond_eq_condRun (t f : List α → List α) (c : Bool) (xs : List α)
    (h1 : 1 ≤ xs.length) (h9 : xs.length ≤ 9) :
    trace_cond t f c xs = .ok (condRun t f c xs) := by
  have hd : cond_dict t f xs.length = some (condProc t f) := by
    have h := h1
    interval_cases h : xs.length <;> rfl
  unfold trace_cond
  rw [hd]
  simp [h9, condProc, condRun]

end Branch

section Vmap

variable {α : Type} [Inhabited α]

/-- A batched state is operand-major: one list per operand, each holding
that operand's per-lane scalar values (batch axis 0, scalar lanes).
`lane xs j` is lane j's operand tuple. -/
def lane (xs : List (List α)) (j : Nat) : List α :=
  xs.map (fun x => x.getD j default)

/-- The number of lanes (the batch size, read off the first operand). -/
def numLanes (xs : List (List α)) : Nat := (xs.getD 0 []).length

/-- The per-lane boolean result of the batch-mapped condition
(`vmap_cond = vmap(cond_fn, in_dims=d)` applied to the whole lane set):
one boolean per lane. Modelled from the spec: the batch-map collaborator
(`core.vmap`, not under src/) lifts a function to operate on the full
lane dimension at once, i.e. lane-wise. -/
def laneMask (c : List α → Bool) (xs : List (List α)) : List Bool :=
  (List.range (numLanes xs)).map (fun j => c (lane xs j))

/-- `_vmap_cond_fn` (control_flow.py lines 207-210, loop.py 414-417):
wraps the batched condition so its per-lane result is broadcast back to
the shape of each operand, one mask per operand — for batch-axis-0
scalar-lane operands every operand's mask is the per-lane mask itself. -/
def vmap_cond_fn (c : List α → Bool) (xs : List (List α)) : List (List Bool) :=
  xs.map (fun _ => laneMask c xs)

/-- The batch-mapped body (`vmap_body = vmap(body_fn, in_dims=d,
out_dims=d)`): lane j of output operand i is component i of the body
applied to lane j's operand tuple; the operand count is preserved.
Modelled from the spec: the batch-map collaborator is lane-wise. -/
def vmapBody (b : List α → List α) (xs : List (List α)) : List (List α) :=
  (List.range xs.length).map
    (fun i => (List.range (numLanes xs)).map (fun j => (b (lane xs j)).getD i default))

/-- Three-list zip, used for the per-operand masked update. -/
def zipWith3 {β γ δ ε : Type} (f : β → γ → δ → ε) : List β → List γ → List δ → List ε
  | x :: xs, y :: ys, z :: zs => f x y z :: zipWith3 f xs ys zs
  | _, _, _ => []

/-- `torch.where(mask, new, old)` over one operand's lanes: keep the old
lane value wherever the mask is false. -/
def whereL (mask : List Bool) (xnew xold : List α) : List α :=
  zipWith3 (fun m n o => if m then n else o) mask xnew xold

/-- One iteration of the batched loop body shared by `_loop2` .. `_loop9`
(control_flow.py lines 224-401, loop.py 431-596): candidate values from
the batched body, then for every operand a predicated update with that
operand's broadcast mask. -/
def vmapStep (c : List α → Bool) (b : List α → List α) (xs : List (List α)) :
    List (List α) :=
  zipWith3 whereL (vmap_cond_fn c xs) (vmapBody b xs) xs

/-- The loop guard `cond_res1.any()`: any lane of the first operand's
mask still true. -/
def vmapGuard (c : List α → Bool) (xs : List (List α)) : Bool :=
  ((vmap_cond_fn c xs).getD 0 []).any id

/-- The batched while loop common to `_loop2` .. `_loop9`: masks are
computed from the current state, the loop runs while any lane of the
first mask is true, and every iteration folds in the masked update and
re-evaluates the masks. -/
def vmapLoopProc (c : List α → Bool) (b : List α → List α) :
    Nat → List (List α) → Except Err (List (List α))
  | 0, xs => if vmapGuard c xs then .error .fuelExhausted else .ok xs
  | fuel + 1, xs =>
    if vmapGuard c xs then vmapLoopProc c b fuel (vmapStep c b xs) else .ok xs

/-- What the variable `cond_res` of `_loop1` holds: a tensor mask (after
`cond(x1)[0]`) or the raw tuple of masks returned by the wrapped
condition (after the in-loop `cond_res = cond(x1)`, which lacks the
`[0]` projection). -/
inductive CondRes where
  | ten (mask : List Bool) : CondRes
  | tup (masks : List (List Bool)) : CondRes
deriving DecidableEq, Repr

/-- `_loop1` of `_compile_vmap_loop_fn` (control_flow.py lines 216-222,
loop.py 423-429): `cond_res = cond(x1)[0]; while cond_res.any(): x1_new =
body(x1); x1 = torch.where(cond_res, x1_new, x1); cond_res = cond(x1)`.
The guard `.any()` on a `cond_res` that holds the raw tuple fails.
Modelled from the spec: the trace-compile collaborator (`core.jit`, not
under src/) is an opaque compile capability, so the compiled condition
behaves as `_vmap_cond_fn` itself and returns the tuple of masks. -/
def vmapLoop1Go (c : List α → Bool) (b : List α → List α) :
    Nat → CondRes → List α → Except Err (List α)
  | _, .tup _, _ => .error .condTupleNoAny
  | 0, .ten mask, x1 => if mask.any id then .error .fuelExhausted else .ok x1
  | fuel + 1, .ten mask, x1 =>
    if mask.any id then
      let x1n := (vmapBody b [x1]).getD 0 []
      vmapLoop1Go c b fuel (.tup (vmap_cond_fn c [whereL mask x1n x1])) (whereL mask x1n x1)
    else .ok x1

/-- The arity-1 batched loop: initial `cond_res = cond(x1)[0]`, then the
loop of `vmapLoop1Go`. -/
def vmapLoop1Proc (c : List α → Bool) (b : List α → List α) (fuel : Nat) (x1 : List α) :
    Except Err (List α) :=
  vmapLoop1Go c b fuel (.ten ((vmap_cond_fn c [x1]).getD 0 [])) x1

/-- The dict `{1: _loop1, ..., 9: _loop9}` of `_compile_vmap_loop_fn`;
the arity-1 entry is the asymmetric `_loop1`, the others share the
uniform masked-update shape. -/
def vmap_loops_dict (c : List α → Bool) (b : List α → List α) (n : Nat) :
    Option (Nat → List (List α) → Except Err (List (List α))) :=
  match n with
  | 1 => some (fun fuel xs => (vmapLoop1Proc c b fuel (xs.getD 0 [])).map (fun r => [r]))
  | 2 | 3 | 4 | 5 | 6 | 7 | 8 | 9 => some (vmapLoopProc c b)
  | _ => none

/-- An argument reaching `vmap_loop`: a batched tensor carrying its
batch-axis positions (from `unwrap_batch_tensor`) and lane values, or a
non-tensor value of which only the type's name matters. -/
inductive VArg (α : Type) where
  | tensor (dims : List Nat) (lanes : List α) : VArg α
  | other (tyName : String) : VArg α
deriving DecidableEq, Repr

/-- The argument scan of `vmap_loop` (control_flow.py lines 424-430,
loop.py 619-623): each argument is asserted to be a tensor — the
assertion message carries the offending value's type, not its position —
and unwrapped into batch dims and raw values. -/
def checkTensors : List (VArg α) → Except Err (List (List Nat × List α))
  | [] => .ok []
  | .tensor d l :: rest => (checkTensors rest).map (fun ps => (d, l) :: ps)
  | .other ty :: _ => .error (.typeMismatch ty)

/-- The position and type name of the first non-tensor argument, if any
(not computed by the code; used to state what the error does and does
not identify). -/
def findOffender : List (VArg α) → Option (Nat × String)
  | [] => none
  | .tensor _ _ :: rest => (findOffender rest).map (fun p => (p.1 + 1, p.2))
  | .other ty :: _ => some (0, ty)

/-- The batched-mode specialization cache: the set of signature keys
`tuple((d, a.ndim) ...)` already built (per-operand ndim is constant in
this scalar-lane model, so the key is the batch-dims tuple). -/
abbrev VCache := List (List (List Nat))

/-- `vmap_loop` (control_flow.py lines 419-445, loop.py 614-638): assert
every operand is a tensor and unwrap it; derive the signature key; on a
cache hit reuse the compiled procedure (the dict entry for this arity),
on a miss compile — the arity assertion and `loops_dict` selection run
inside `_compile_vmap_loop_fn`, and only a successful build is stored —
then run the procedure on the raw operands. The re-wrapping of batch
metadata on the results is dropped: lanes are returned directly. -/
def vmap_loop (c : List α → Bool) (b : List α → List α) (fuel : Nat)
    (cache : VCache) (args : List (VArg α)) :
    Except Err (List (List α)) × VCache :=
  match checkTensors args with
  | .error e => (.error e, cache)
  | .ok pairs =>
    let xs := pairs.map (fun p => p.2)
    let key := pairs.map (fun p => p.1)
    if key ∈ cache then
      match vmap_loops_dict c b xs.length with
      | some proc => (proc fuel xs, cache)
      | none => (.error (.keyLookup xs.length), cache)
    else
      if xs.length ≤ 9 then
        match vmap_loops_dict c b xs.length with
        | some proc => (proc fuel xs, key :: cache)
        | none => (.error (.keyLookup xs.length), cache)
      else (.error (.unsupportedArity 9 xs.length), cache)

end Vmap

section VmapLemmas

variable {α : Type} [Inhabited α]

/-- All operands carry the same number of lanes (the batch size). -/
def Uniform {σ : Type} (m : Nat) (xs : List (List σ)) : Prop :=
  ∀ x ∈ xs, x.length = m

/-- One conditional step of a single lane: apply the body iff the
condition holds — the per-lane meaning of one predicated update. -/
def condStep (c : List α → Bool) (b : List α → List α) (l : List α) : List α :=
  if c l then b l else l

theorem length_zipWith3 {β γ δ ε : Type} (f : β → γ → δ → ε) :
    ∀ (as : List β) (bs : List γ) (cs : List δ),
      (zipWith3 f as bs cs).length = min as.length (min bs.length cs.length) := by
  intro as
  induction as with
  | nil => intro bs cs; simp [zipWith3]
  | cons a as ih =>
    intro bs cs
    cases bs with
    | nil => simp [zipWith3]
    | cons b bs =>
      cases cs with
      | nil => simp [zipWith3]
      | cons c cs => simp [zipWith3, ih, Nat.succ_min_succ]

theorem getD_zipWith3 {β γ δ ε : Type} (f : β → γ → δ → ε) :
    ∀ (as : List β) (bs : List γ) (cs : List δ) (j : Nat),
      j < as.length → j < bs.length → j < cs.length →
      ∀ (e : ε) (d1 : β) (d2 : γ) (d3 : δ),
      (zipWith3 f as bs cs).getD j e = f (as.getD j d1) (bs.getD j d2) (cs.getD j d3) := by
  intro as
  induction as with
  | nil => intro bs cs j h1; simp at h1
  | cons a as ih =>
    intro bs cs j h1 h2 h3 e d1 d2 d3
    cases bs with
    | nil => simp at h2
    | cons b bs =>
      cases cs with
      | nil => simp at h3
      | cons c cs =>
        cases j with
        | zero => rfl
        | succ j =>
          simp only [zipWith3, List.getD_cons_succ]
          exact ih bs cs j (by simpa using h1) (by simpa using h2) (by simpa using h3) e d1 d2 d3

theorem getD_map_range {β : Type} (n : Nat) (f : Nat → β) (j : Nat) (hj : j < n) (d : β) :
    ((List.range n).map f).getD j d = f j := by
  rw [List.getD_eq_getElem _ d (by simpa using hj)]
  simp

theorem length_lane (xs : List (List α)) (j : Nat) : (lane xs j).length = xs.length := by
  simp [lane]

theorem getD_lane (xs : List (List α)) (j i : Nat) (hi : i < xs.length) (d : α) :
    (lane xs j).getD i d = (xs.getD i []).getD j default := by
  unfold lane
  rw [List.getD_eq_getElem _ d (by simpa using hi), List.getD_eq_getElem _ [] hi]
  simp

theorem numLanes_uniform {m : Nat} (xs : List (List α)) (hu : Uniform m xs)
    (hne : xs ≠ []) : numLanes xs = m := by
  cases xs with
  | nil => exact absurd rfl hne
  | cons x xs => exact hu x (by simp)

theorem length_laneMask (c : List α → Bool) (xs : List (List α)) :
    (laneMask c xs).length = numLanes xs := by
  simp [laneMask]

theorem getD_laneMask (c : List α → Bool) (xs : List (List α)) (j : Nat)
    (hj : j < numLanes xs) : (laneMask c xs).getD j false = c (lane xs j) := by
  unfold laneMask
  rw [List.getD_eq_getElem _ false (by simpa using hj)]
  simp

theorem length_vmap_cond_fn (c : List α → Bool) (xs : List (List α)) :
    (vmap_cond_fn c xs).length = xs.length := by
  simp [vmap_cond_fn]

theorem getD_vmap_cond_fn (c : List α → Bool) (xs : List (List α)) (i : Nat)
    (hi : i < xs.length) : (vmap_cond_fn c xs).getD i [] = laneMask c xs := by
  unfold vmap_cond_fn
  rw [List.getD_eq_getElem _ [] (by simpa using hi)]
  simp

theorem length_vmapBody (b : List α → List α) (xs : List (List α)) :
    (vmapBody b xs).length = xs.length := by
  simp [vmapBody]

theorem getD_vmapBody (b : List α → List α) (xs : List (List α)) (i : Nat)
    (hi : i < xs.length) :
    (vmapBody b xs).getD i [] =
      (List.range (numLanes xs)).map (fun j => (b (lane xs j)).getD i default) := by
  unfold vmapBody
  rw [List.getD_eq_getElem _ [] (by simpa using hi)]
  simp

theorem length_vmapStep (c : List α → Bool) (b : List α → List α) (xs : List (List α)) :
    (vmapStep c b xs).length = xs.length := by
  unfold vmapStep
  rw [length_zipWith3]
  simp [length_vmap_cond_fn, length_vmapBody]

theorem getD_vmapStep (c : List α → Bool) (b : List α → List α) (xs : List (List α))
    (i : Nat) (hi : i < xs.length) :
    (vmapStep c b xs).getD i [] =
      whereL (laneMask c xs) ((vmapBody b xs).getD i []) (xs.getD i []) := by
  unfold vmapStep
  rw [getD_zipWith3 whereL (vmap_cond_fn c xs) (vmapBody b xs) xs i
        (by rw [length_vmap_cond_fn]; exact hi) (by rw [length_vmapBody]; exact hi) hi
        [] [] [] []]
  rw [getD_vmap_cond_fn c xs i hi]

/-- The per-lane reading of one masked update: lane j of the batched step
is exactly the conditional step of lane j. -/
theorem lane_vmapStep {m : Nat} (c : List α → Bool) (b : List α → List α)
    (xs : List (List α)) (hu : Uniform m xs) (hne : xs ≠ [])
    (hb : ∀ l : List α, l.length = xs.length → (b l).length = xs.length)
    (j : Nat) (hj : j < m) :
    lane (vmapStep c b xs) j = condStep c b (lane xs j) := by
  have hm : numLanes xs = m := numLanes_uniform xs hu hne
  have hblen : (b (lane xs j)).length = xs.length := hb _ (length_lane xs j)
  apply List.ext_getElem
  · rw [length_lane, length_vmapStep, condStep]
    by_cases hc : c (lane xs j) <;> simp [hc, hblen, length_lane]
  · intro i hi1 hi2
    have hix : i < xs.length := by
      simpa [length_lane, length_vmapStep] using hi1
    have hjm : j < numLanes xs := by rw [hm]; exact hj
    have hmask : j < (laneMask c xs).length := by rw [length_laneMask]; exact hjm
    have hnew : j < ((vmapBody b xs).getD i []).length := by
      rw [getD_vmapBody b xs i hix]; simpa using hjm
    have hold : j < (xs.getD i []).length := by
      have : (xs.getD i []) ∈ xs := by
        rw [List.getD_eq_getElem _ [] hix]; exact List.getElem_mem hix
      rw [hu _ this]; exact hj
    have lhs : (lane (vmapStep c b xs) j).getD i default =
        if c (lane xs j) then (b (lane xs j)).getD i default
        else (xs.getD i []).getD j default := by
      rw [getD_lane _ j i (by rw [length_vmapStep]; exact hix) default]
      rw [getD_vmapStep c b xs i hix]
      unfold whereL
      rw [getD_zipWith3 _ _ _ _ j hmask hnew hold default false default default]
      rw [getD_laneMask c xs j hjm, getD_vmapBody b xs i hix,
        getD_map_range (numLanes xs) _ j hjm]
    have rhs : (condStep c b (lane xs j)).getD i default =
        if c (lane xs j) then (b (lane xs j)).getD i default
        else (xs.getD i []).getD j default := by
      unfold condStep
      by_cases hc : c (lane xs j) = true
      · rw [if_pos hc, if_pos hc]
      · rw [if_neg hc, if_neg hc, getD_lane xs j i hix default]
    calc (lane (vmapStep c b xs) j)[i] = (lane (vmapStep c b xs) j).getD i default := by
          rw [List.getD_eq_getElem _ default hi1]
      _ = (condStep c b (lane xs j)).getD i default := by rw [lhs, rhs]
      _ = (condStep c b (lane xs j))[i] := by rw [List.getD_eq_getElem _ default hi2]

theorem uniform_vmapStep {m : Nat} (c : List α → Bool) (b : List α → List α)
    (xs : List (List α)) (hu : Uniform m xs) (hne : xs ≠ []) :
    Uniform m (vmapStep c b xs) := by
  have hm : numLanes xs = m := numLanes_uniform xs hu hne
  intro y hy
  rcases List.mem_iff_getElem.mp hy with ⟨i, hilt, hiy⟩
  have hix : i < xs.length := by simpa [length_vmapStep] using hilt
  have hyD : y = (vmapStep c b xs).getD i [] := by
    rw [List.getD_eq_getElem _ [] hilt, hiy]
  have hold : (xs.getD i []).length = m := by
    apply hu
    rw [List.getD_eq_getElem _ [] hix]
    exact List.getElem_mem hix
  rw [hyD, getD_vmapStep c b xs i hix]
  unfold whereL
  rw [length_zipWith3, length_laneMask, hm, getD_vmapBody b xs i hix,
    List.length_map, List.length_range, hm, hold]
  simp

theorem vmapGuard_false_lane (c : List α → Bool) (xs : List (List α)) (hne : xs ≠ [])
    (hg : vmapGuard c xs = false) (j : Nat) (hj : j < numLanes xs) :
    c (lane xs j) = false := by
  have h0 : (vmap_cond_fn c xs).getD 0 [] = laneMask c xs :=
    getD_vmap_cond_fn c xs 0 (by cases xs with
      | nil => exact absurd rfl hne
      | cons x xs => simp)
  unfold vmapGuard at hg
  rw [h0] at hg
  by_contra hcj
  have hcj' : c (lane xs j) = true := by
    cases h : c (lane xs j) with
    | false => exact absurd h hcj
    | true => rfl
  have hmem : c (lane xs j) ∈ laneMask c xs := by
    have : (laneMask c xs).getD j false = c (lane xs j) := getD_laneMask c xs j hj
    rw [List.getD_eq_getElem _ false (by rw [length_laneMask]; exact hj)] at this
    rw [← this]
    exact List.getElem_mem (by rw [length_laneMask]; exact hj)
  have : (laneMask c xs).any id = true := List.any_eq_true.mpr ⟨_, hmem, hcj'⟩
  rw [hg] at this
  exact Bool.false_ne_true this

/-- Per-lane correctness of the uniform batched loop (`_loop2`-`_loop9`):
whenever it returns, each lane's result is what the direct executor
computes for that lane alone, with the same fuel. -/
theorem vmapLoopProc_lane (c : List α → Bool) (b : List α → List α) (n m : Nat)
    (hb : ∀ l : List α, l.length = n → (b l).length = n) :
    ∀ (fuel : Nat) (xs ys : List (List α)), xs.length = n → xs ≠ [] → Uniform m xs →
      vmapLoopProc c b fuel xs = .ok ys →
      ∀ j, j < m → loop c b fuel (lane xs j) = .ok (lane ys j) := by
  intro fuel
  induction fuel with
  | zero =>
    intro xs ys hlen hne hu hok j hj
    unfold vmapLoopProc at hok
    by_cases hg : vmapGuard c xs
    · simp [hg] at hok
    · simp [hg] at hok
      subst hok
      have hm : numLanes xs = m := numLanes_uniform xs hu hne
      have hc : c (lane xs j) = false :=
        vmapGuard_false_lane c xs hne (by simpa using hg) j (by rw [hm]; exact hj)
      simp [loop, hc]
  | succ f ih =>
    intro xs ys hlen hne hu hok j hj
    have hm : numLanes xs = m := numLanes_uniform xs hu hne
    unfold vmapLoopProc at hok
    by_cases hg : vmapGuard c xs
    · simp [hg] at hok
      have hb' : ∀ l : List α, l.length = xs.length → (b l).length = xs.length := by
        intro l hl
        rw [hlen] at hl ⊢
        exact hb l hl
      have hlen' : (vmapStep c b xs).length = n := by rw [length_vmapStep, hlen]
      have hne' : vmapStep c b xs ≠ [] := by
        apply List.ne_nil_of_length_pos
        rw [length_vmapStep]
        exact List.length_pos.mpr hne
      have hu' : Uniform m (vmapStep c b xs) := uniform_vmapStep c b xs hu hne
      have hstep := ih (vmapStep c b xs) ys hlen' hne' hu' hok j hj
      rw [lane_vmapStep c b xs hu hne hb' j hj] at hstep
      by_cases hc : c (lane xs j) = true
      · unfold condStep at hstep
        rw [if_pos hc] at hstep
        simp [loop, hc, hstep]
      · unfold condStep at hstep
        rw [if_neg hc] at hstep
        have hfix : loop c b f (lane xs j) = .ok (lane xs j) :=
          loop_of_cond_false c b (lane xs j) (by simpa using hc) f
        rw [hfix] at hstep
        have heq : lane xs j = lane ys j := by
          injection hstep
        rw [← heq]
        simp [loop, hc]
    · simp [hg] at hok
      subst hok
      have hc : c (lane xs j) = false :=
        vmapGuard_false_lane c xs hne (by simpa using hg) j (by rw [hm]; exact hj)
      simp [loop, hc]

end VmapLemmas

section StatefulLoop

/-- The external state snapshot: a dict from names to scalar tensors. -/
abbrev StateD := List (String × Int)

/-- Python `dict.update`: existing keys keep their position and take the
new value; keys only in the update are appended. -/
def dictUpdate (s t : StateD) : StateD :=
  s.map (fun kv => (kv.1, (t.lookup kv.1).getD kv.2))
    ++ t.filter (fun kv => (s.lookup kv.1).isNone)

/-- A value passed positionally to a traced stateful function: a scalar
tensor, or a whole operand tuple passed as one argument. -/
inductive Val where
  | ten (x : Int) : Val
  | tup (xs : List Int) : Val
deriving DecidableEq, Repr

/-- Calling a compiled `use_state`-extracted function of declared operand
arity n: the call fails when the number of positional operands is wrong
(Python TypeError), otherwise when a non-tensor is passed where the
traced function expects a tensor, otherwise it computes
`(new_state, result)`. -/
def callStateFn {β : Type} (n : Nat) (f : StateD → List Int → StateD × β)
    (st : StateD) (args : List Val) : Except Err (StateD × β) :=
  if args.length = n then
    match args.mapM (fun a => match a with | .ten x => some x | .tup _ => none) with
    | some xs => .ok (f st xs)
    | none => .error (.typeMismatch "tuple")
  else .error (.callArity n args.length)

/-- The loop of the stateful specialized procedures `_loop1` .. `_loop9`
of `_compile_state_loop_fn` (loop.py lines 105-252) after the initial
condition evaluation: while the condition holds, run the body, merge its
state, re-evaluate the condition on the operands packed by `pack`, and
merge its state. For every arity except 3 the re-evaluation passes the
operands unpacked (`cond_fn(state, *xs)`); `_loop3` (lines 126-135)
passes the tuple as one argument (`cond_fn(state, xs)`). -/
def stateLoopGo (condC : StateD → List Val → Except Err (StateD × Bool))
    (bodyC : StateD → List Val → Except Err (StateD × List Int))
    (pack : List Int → List Val) :
    Nat → StateD → List Int → Bool → Except Err (StateD × List Int)
  | 0, st, xs, c => if c then .error .fuelExhausted else .ok (st, xs)
  | fuel + 1, st, xs, c =>
    if c then do
      let br ← bodyC st (xs.map Val.ten)
      let st1 := dictUpdate st br.1
      let cr ← condC st1 (pack br.2)
      let st2 := dictUpdate st1 cr.1
      stateLoopGo condC bodyC pack fuel st2 br.2 cr.2
    else .ok (st, xs)

/-- A whole stateful specialized procedure: the initial condition call on
the unpacked operands (`cond_fn(state, *xs)` — all nine arities agree
here), its state merged, then the loop of `stateLoopGo`. -/
def stateLoopProc (condC : StateD → List Val → Except Err (StateD × Bool))
    (bodyC : StateD → List Val → Except Err (StateD × List Int))
    (pack : List Int → List Val) (fuel : Nat) (st : StateD) (xs : List Int) :
    Except Err (StateD × List Int) := do
  let cr ← condC st (xs.map Val.ten)
  stateLoopGo condC bodyC pack fuel (dictUpdate st cr.1) xs cr.2

/-- The dict `{1: _loop1, ..., 9: _loop9}` of `_compile_state_loop_fn`
(loop.py line 254): every entry re-evaluates the condition with the
operands unpacked, except `_loop3`, whose in-loop re-evaluation passes
the operand tuple as a single argument. -/
def state_loops_dict (condF : StateD → List Int → StateD × Bool)
    (bodyF : StateD → List Int → StateD × List Int) (n : Nat) :
    Option (Nat → StateD → List Int → Except Err (StateD × List Int)) :=
  match n with
  | 3 => some (stateLoopProc (callStateFn 3 condF) (callStateFn 3 bodyF)
      (fun xs => [Val.tup xs]))
  | 1 | 2 | 4 | 5 | 6 | 7 | 8 | 9 =>
    some (stateLoopProc (callStateFn n condF) (callStateFn n bodyF)
      (fun xs => xs.map Val.ten))
  | _ => none

/-- The stateful branch of `trace_loop` (loop.py lines 373-395): the
leading state argument is split off, the compiled stateful procedure for
the operand count is selected (`_compile_state_loop_fn` runs the arity
assertion and the dict selection) and invoked as
`compiled(state, *x)`, returning `(final_state, operands)`. -/
def trace_loop_state (condF : StateD → List Int → StateD × Bool)
    (bodyF : StateD → List Int → StateD × List Int) (fuel : Nat)
    (st : StateD) (xs : List Int) : Except Err (StateD × List Int) :=
  if xs.length ≤ 9 then
    match state_loops_dict condF bodyF xs.length with
    | some proc => proc fuel st xs
    | none => .error (.keyLookup xs.length)
  else .error (.unsupportedArity 9 xs.length)

end StatefulLoop

section Caches

/-- A tensor as the specialization caches see it: structural metadata
(rank, element type, storage location) plus the payload, which the cache
key ignores. -/
structure VTensor where
  ndim : Nat
  dtype : String
  device : String
  data : List Int
deriving DecidableEq, Repr

/-- The trace-mode OperandSignature
`tuple((a.ndim, a.dtype, a.device) for a in x)` (loop.py line 380). -/
def traceKey (xs : List VTensor) : List (Nat × String × String) :=
  xs.map (fun a => (a.ndim, a.dtype, a.device))

/-- The batched-mode OperandSignature
`tuple((d, a.ndim, a.dtype, a.device) for d, a in zip(vmap_dims, original_args))`
(loop.py line 626): the trace key extended with each operand's batch-axis
descriptor. -/
def vmapKey (dims : List (List Nat)) (xs : List VTensor) :
    List (List Nat × Nat × String × String) :=
  List.zipWith (fun d a => (d, a.ndim, a.dtype, a.device)) dims xs

/-- A specialization cache: the signature keys already built, and how
many times a specialized procedure was constructed (the build counter of
the spec's idempotent-caching property). -/
structure CacheState (κ : Type) where
  entries : List κ
  builds : Nat
deriving DecidableEq, Repr

/-- The cache step shared by `trace_loop` (loop.py lines 380-394) and
`vmap_loop` (lines 626-631): `if key in cache: reuse else: build;
cache[key] = built`. Returns whether a build happened. -/
def cacheFetch {κ : Type} [DecidableEq κ] (k : κ) (c : CacheState κ) :
    Bool × CacheState κ :=
  if k ∈ c.entries then (false, c)
  else (true, ⟨k :: c.entries, c.builds + 1⟩)

theorem cacheFetch_once {κ : Type} [DecidableEq κ] (k k2 k3 : κ) (c : CacheState κ)
    (hk : k ∉ c.entries) (h2 : k2 = k) (h3 : k3 ≠ k) :
    (cacheFetch k c).1 = true
    ∧ (cacheFetch k c).2.builds = c.builds + 1
    ∧ cacheFetch k2 (cacheFetch k c).2 = (false, (cacheFetch k c).2)
    ∧ (k3 ∉ c.entries →
        (cacheFetch k3 (cacheFetch k c).2).1 = true
        ∧ (cacheFetch k3 (cacheFetch k c).2).2.builds = c.builds + 2
        ∧ k ∈ (cacheFetch k3 (cacheFetch k c).2).2.entries
        ∧ k3 ∈ (cacheFetch k3 (cacheFetch k c).2).2.entries) := by
  have hfetch : cacheFetch k c = (true, ⟨k :: c.entries, c.builds + 1⟩) := by
    simp [cacheFetch, hk]
  refine ⟨by simp [hfetch], by simp [hfetch], ?_, ?_⟩
  · rw [h2, hfetch]
    simp [cacheFetch]
  · intro h3mem
    have hk3 : k3 ∉ (cacheFetch k c).2.entries := by
      rw [hfetch]
      simp [h3, h3mem]
    rw [hfetch] at hk3 ⊢
    simp [cacheFetch, hk3]

/-- A tracer instance: its condition/body function identities and its
stateful flag, fixed at construction. Function identities are modelled
as numbers (Python object ids). -/
structure Tracer where
  condId : Nat
  bodyId : Nat
  stateful : Bool
deriving DecidableEq, Repr

/-- The identity key of a condition/body pair. -/
abbrev FnPair := Nat × Nat

/-- Lookup in the identity-keyed instance cache. -/
def findPair (p : FnPair) : List (FnPair × Tracer) → Option Tracer
  | [] => none
  | (q, t) :: rest => if q = p then some t else findPair p rest

/-- Modelled from the spec: `_get_cache_key_object` and the weak-value
instance cache live in `src/evox/utils/_control_flow/utils.py`, which is
not among the repository's files; per spec section 4.1
(`get_or_create`), together with `TracingWhile.__new__`/`__init__`
(loop.py lines 18-60): if an entry exists for the identity pair it is
returned unchanged (the new stateful flag and functions are ignored —
`__init__` returns early when the key is already cached); otherwise a
new tracer is constructed and registered under the pair's identity key.
The weak-reference eviction is outside this model. -/
def get_or_create (cache : List (FnPair × Tracer)) (condId bodyId : Nat)
    (stateful : Bool) : Tracer × List (FnPair × Tracer) :=
  match findPair (condId, bodyId) cache with
  | some t => (t, cache)
  | none =>
    let t : Tracer := ⟨condId, bodyId, stateful⟩
    (t, ((condId, bodyId), t) :: cache)

/-- Every cached tracer's function identities agree with its key (true
of the real cache: a tracer is only ever registered under its own
pair). -/
def WFCache (cache : List (FnPair × Tracer)) : Prop :=
  ∀ p t, findPair p cache = some t → t.condId = p.1 ∧ t.bodyId = p.2

theorem wf_get_or_create (cache : List (FnPair × Tracer)) (cid bid : Nat) (b : Bool)
    (hwf : WFCache cache) : WFCache (get_or_create cache cid bid b).2 := by
  unfold get_or_create
  cases hfind : findPair (cid, bid) cache with
  | some t => exact hwf
  | none =>
    intro p t ht
    unfold findPair at ht
    by_cases hp : (cid, bid) = p
    · rw [if_pos hp] at ht
      cases ht
      cases hp
      exact ⟨rfl, rfl⟩
    · rw [if_neg hp] at ht
      exact hwf p t ht

theorem get_or_create_ids (cache : List (FnPair × Tracer)) (cid bid : Nat) (b : Bool)
    (hwf : WFCache cache) :
    (get_or_create cache cid bid b).1.condId = cid
    ∧ (get_or_create cache cid bid b).1.bodyId = bid := by
  unfold get_or_create
  cases hfind : findPair (cid, bid) cache with
  | some t => exact hwf (cid, bid) t hfind
  | none => exact ⟨rfl, rfl⟩

theorem get_or_create_registers (cache : List (FnPair × Tracer)) (cid bid : Nat)
    (b : Bool) :
    findPair (cid, bid) (get_or_create cache cid bid b).2
      = some (get_or_create cache cid bid b).1 := by
  unfold get_or_create
  cases hfind : findPair (cid, bid) cache with
  | some t => exact hfind
  | none => simp [findPair]

theorem get_or_create_hit (cache : List (FnPair × Tracer)) (cid bid : Nat) (b : Bool)
    (t : Tracer) (h : findPair (cid, bid) cache = some t) :
    get_or_create cache cid bid b = (t, cache) := by
  unfold get_or_create
  rw [h]

end Caches

section VmapCond

variable {α : Type} [Inhabited α]

/-- The batch-mapped application of a branch function: lane j of output
element i is component i of the branch applied to lane j's operand
tuple; the output element count is read off lane 0 (the branch returns a
result list of fixed length). Modelled from the spec: under batched
execution the raw branch function applied to batch-wrapped operands runs
lane-wise via the batch-map collaborator. -/
def vmapApply (f : List α → List α) (xs : List (List α)) : List (List α) :=
  (List.range (f (lane xs 0)).length).map
    (fun i => (List.range (numLanes xs)).map (fun j => (f (lane xs j)).getD i default))

/-- `vmap_cond` (control_flow.py lines 658-666): both branch functions
evaluated unconditionally on the batched operands, then for each result
element a `torch.where(cond, t, f)` with the per-lane predicate. -/
def vmap_cond (t f : List α → List α) (pred : List Bool) (xs : List (List α)) :
    List (List α) :=
  List.zipWith (fun tr fr => whereL pred tr fr) (vmapApply t xs) (vmapApply f xs)

/-- `vmap_cond` with an invocation counter threaded past each branch
call site: `true_res = self._true_fn(*x)` then
`false_res = self._false_fn(*x)` — one call each, before and
independent of the elementwise selection. -/
def vmap_cond_counted (t f : List α → List α) (pred : List Bool) (xs : List (List α))
    (tc fc : Nat) : List (List α) × Nat × Nat :=
  let trueCall := (vmapApply t xs, tc + 1)
  let falseCall := (vmapApply f xs, fc + 1)
  (List.zipWith (fun tr fr => whereL pred tr fr) trueCall.1 falseCall.1,
    trueCall.2, falseCall.2)

theorem length_vmapApply (f : List α → List α) (xs : List (List α)) :
    (vmapApply f xs).length = (f (lane xs 0)).length := by
  simp [vmapApply]

theorem getD_vmapApply (f : List α → List α) (xs : List (List α)) (i : Nat)
    (hi : i < (f (lane xs 0)).length) :
    (vmapApply f xs).getD i [] =
      (List.range (numLanes xs)).map (fun j => (f (lane xs j)).getD i default) := by
  unfold vmapApply
  exact getD_map_range _ _ i hi []

/-- Per-lane reading of `vmap_cond`: lane j of the result is the direct
branch executor's output for lane j under lane j's predicate. -/
theorem lane_vmap_cond {m k : Nat} (t f : List α → List α) (pred : List Bool)
    (xs : List (List α)) (hu : Uniform m xs) (hne : xs ≠ [])
    (hp : pred.length = m)
    (ht : ∀ l : List α, l.length = xs.length → (t l).length = k)
    (hf : ∀ l : List α, l.length = xs.length → (f l).length = k)
    (j : Nat) (hj : j < m) :
    lane (vmap_cond t f pred xs) j = condRun t f (pred.getD j false) (lane xs j) := by
  have hm : numLanes xs = m := numLanes_uniform xs hu hne
  have htk : ∀ j', (t (lane xs j')).length = k := fun j' => ht _ (length_lane xs j')
  have hfk : ∀ j', (f (lane xs j')).length = k := fun j' => hf _ (length_lane xs j')
  have hlenT : (vmapApply t xs).length = k := by rw [length_vmapApply, htk]
  have hlenF : (vmapApply f xs).length = k := by rw [length_vmapApply, hfk]
  have hres : (vmap_cond t f pred xs).length = k := by
    unfold vmap_cond
    rw [List.length_zipWith, hlenT, hlenF, Nat.min_self]
  apply List.ext_getElem
  · rw [length_lane, hres, condRun]
    by_cases hc : pred.getD j false = true
    · rw [if_pos hc, htk]
    · rw [if_neg hc, hfk]
  · intro i hi1 hi2
    have hik : i < k := by simpa [length_lane, hres] using hi1
    have hiT : i < (vmapApply t xs).length := by rw [hlenT]; exact hik
    have hiF : i < (vmapApply f xs).length := by rw [hlenF]; exact hik
    have hresD : (vmap_cond t f pred xs).getD i [] =
        whereL pred ((vmapApply t xs).getD i []) ((vmapApply f xs).getD i []) := by
      unfold vmap_cond
      rw [List.getD_eq_getElem _ []
        (by rw [List.length_zipWith, hlenT, hlenF, Nat.min_self]; exact hik)]
      rw [List.getElem_zipWith]
      rw [List.getD_eq_getElem _ [] hiT, List.getD_eq_getElem _ [] hiF]
    have hTj : ((vmapApply t xs).getD i []).getD j default
        = (t (lane xs j)).getD i default := by
      rw [getD_vmapApply t xs i (by rw [htk]; exact hik),
        getD_map_range _ _ j (by rw [hm]; exact hj)]
    have hFj : ((vmapApply f xs).getD i []).getD j default
        = (f (lane xs j)).getD i default := by
      rw [getD_vmapApply f xs i (by rw [hfk]; exact hik),
        getD_map_range _ _ j (by rw [hm]; exact hj)]
    have hwl : (lane (vmap_cond t f pred xs) j).getD i default =
        if pred.getD j false then (t (lane xs j)).getD i default
        else (f (lane xs j)).getD i default := by
      rw [getD_lane _ j i (by rw [hres]; exact hik) default, hresD]
      unfold whereL
      rw [getD_zipWith3 _ _ _ _ j (by rw [hp]; exact hj)
        (by rw [getD_vmapApply t xs i (by rw [htk]; exact hik)]; simp [hm, hj])
        (by rw [getD_vmapApply f xs i (by rw [hfk]; exact hik)]; simp [hm, hj])
        default false default default]
      rw [hTj, hFj]
    have hcr : (condRun t f (pred.getD j false) (lane xs j)).getD i default =
        if pred.getD j false then (t (lane xs j)).getD i default
        else (f (lane xs j)).getD i default := by
      unfold condRun
      by_cases hc : pred.getD j false = true
      · rw [if_pos hc, if_pos hc]
      · rw [if_neg hc, if_neg hc]
    calc (lane (vmap_cond t f pred xs) j)[i]
        = (lane (vmap_cond t f pred xs) j).getD i default := by
          rw [List.getD_eq_getElem _ default hi1]
      _ = (condRun t f (pred.getD j false) (lane xs j)).getD i default := by
          rw [hwl, hcr]
      _ = (condRun t f (pred.getD j false) (lane xs j))[i] := by
          rw [List.getD_eq_getElem _ default hi2]

end VmapCond

section Dispatcher

variable {α : Type} [Inhabited α]

/-- Whether an argument is a tensor (what the vmap assertion checks). -/
def isTensorArg : VArg α → Bool
  | .tensor _ _ => true
  | .other _ => false

theorem checkTensors_map_tensor (xs : List (List α)) :
    checkTensors (xs.map (fun l => VArg.tensor [0] l))
      = .ok (xs.map (fun l => ([0], l))) := by
  induction xs with
  | nil => rfl
  | cons x xs ih => simp [checkTensors, ih, Except.map]

theorem checkTensors_ok (args : List (VArg α)) (h : ∀ a ∈ args, isTensorArg a = true) :
    ∃ ps, checkTensors args = .ok ps ∧ ps.length = args.length := by
  induction args with
  | nil => exact ⟨[], rfl, rfl⟩
  | cons a args ih =>
    cases a with
    | tensor d l =>
      obtain ⟨ps, hps, hlen⟩ := ih (fun a ha => h a (List.mem_cons_of_mem _ ha))
      exact ⟨(d, l) :: ps, by simp [checkTensors, hps, Except.map], by simp [hlen]⟩
    | other ty =>
      have := h (.other ty) (List.mem_cons_self _ _)
      simp [isTensorArg] at this

theorem checkTensors_offender (args : List (VArg α)) (p : Nat) (ty : String)
    (h : findOffender args = some (p, ty)) :
    checkTensors args = .error (.typeMismatch ty) := by
  induction args generalizing p with
  | nil => simp [findOffender] at h
  | cons a args ih =>
    cases a with
    | tensor d l =>
      unfold findOffender at h
      cases hr : findOffender args with
      | none => rw [hr] at h; simp at h
      | some q =>
        rw [hr] at h
        simp [Option.map] at h
        have : checkTensors args = .error (.typeMismatch ty) := by
          apply ih q.1
          rw [hr, ← h.2]
        simp [checkTensors, this, Except.map]
    | other ty2 =>
      unfold findOffender at h
      simp at h
      rw [checkTensors, h.2]

theorem vmap_loops_dict_mem (c : List α → Bool) (b : List α → List α) (n : Nat)
    (h2 : 2 ≤ n) (h9 : n ≤ 9) : vmap_loops_dict c b n = some (vmapLoopProc c b) := by
  interval_cases n <;> rfl

theorem vmapLoopProc_no_arity (c : List α → Bool) (b : List α → List α) :
    ∀ fuel xs l g, vmapLoopProc c b fuel xs ≠ .error (.unsupportedArity l g) := by
  intro fuel
  induction fuel with
  | zero => intro xs l g; by_cases h : vmapGuard c xs <;> simp [vmapLoopProc, h]
  | succ f ih =>
    intro xs l g
    by_cases h : vmapGuard c xs <;> simp [vmapLoopProc, h, ih]

theorem vmapLoop1Go_no_arity (c : List α → Bool) (b : List α → List α) :
    ∀ fuel cr x1 l g, vmapLoop1Go c b fuel cr x1 ≠ .error (.unsupportedArity l g) := by
  intro fuel
  induction fuel with
  | zero =>
    intro cr x1 l g
    cases cr with
    | tup masks => simp [vmapLoop1Go]
    | ten mask => by_cases h : mask.any id <;> simp [vmapLoop1Go, h]
  | succ f ih =>
    intro cr x1 l g
    cases cr with
    | tup masks => simp [vmapLoop1Go]
    | ten mask => by_cases h : mask.any id <;> simp [vmapLoop1Go, h, ih]

/-- Invoking `vmap_loop` on fresh-cache batch-axis-0 tensors with an
operand count between 2 and 9 runs the uniform masked-update loop. -/
theorem vmap_loop_run (c : List α → Bool) (b : List α → List α) (fuel : Nat)
    (xs : List (List α)) (h2 : 2 ≤ xs.length) (h9 : xs.length ≤ 9) :
    (vmap_loop c b fuel [] (xs.map (fun l => VArg.tensor [0] l))).1
      = vmapLoopProc c b fuel xs := by
  unfold vmap_loop
  rw [checkTensors_map_tensor xs]
  have hmap : (xs.map (fun l => (([0] : List Nat), l))).map (fun p => p.2) = xs := by
    rw [List.map_map]
    simp
  have hlen : ((xs.map (fun l => (([0] : List Nat), l))).map (fun p => p.2)).length
      = xs.length := by rw [hmap]
  simp only [hmap]
  rw [vmap_loops_dict_mem c b xs.length h2 h9]
  simp [h9]

end Dispatcher

section Examples

/-- The spec's end-to-end example condition: the first operand is below
10. -/
def ltTen (xs : List Int) : Bool := decide (xs.getD 0 0 < 10)

/-- The spec's end-to-end example body: increment every operand. -/
def addOne (xs : List Int) : List Int := xs.map (fun v => v + 1)

/-- Example false-branch: decrement every operand. -/
def subOne (xs : List Int) : List Int := xs.map (fun v => v - 1)

/-- Example stateful condition: writes no state, tests the first operand
below 3. -/
def sCond (st : StateD) (xs : List Int) : StateD × Bool :=
  (([] : StateD), decide (xs.getD 0 0 < 3))

/-- Example stateful body: counts its invocations in the state slot
"steps" and increments every operand. -/
def sBody (st : StateD) (xs : List Int) : StateD × List Int :=
  ([("steps", (st.lookup "steps").getD 0 + 1)], xs.map (fun v => v + 1))

end Examples

section Claims

/-- C1: on the spec's end-to-end example (condition x < 10, body x + 1),
direct execution, the trace-compiled path and the single-lane batched
path agree for the loop at operand count 2 and for the branch at all
checked inputs — but the single-lane batched loop at operand count 1
fails: its in-loop re-evaluation `cond_res = cond(x1)` drops the `[0]`
projection used at initialization, so the guard `.any()` runs on the raw
tuple of masks, while the direct executor returns `[10]`. -/
theorem c1_three_modes_agree_except_vmap_arity1 :
    loop ltTen addOne 15 [0] = .ok [10]
    ∧ trace_loop ltTen addOne 15 [0] = .ok [10]
    ∧ loop ltTen addOne 15 [0, 5] = .ok [10, 15]
    ∧ trace_loop ltTen addOne 15 [0, 5] = .ok [10, 15]
    ∧ (vmap_loop ltTen addOne 15 [] [VArg.tensor [0] [0], VArg.tensor [0] [5]]).1
        = .ok [[10], [15]]
    ∧ condRun addOne subOne true [3, 4] = [4, 5]
    ∧ trace_cond addOne subOne true [3, 4] = .ok [4, 5]
    ∧ vmap_cond addOne subOne [true] [[3], [4]] = [[4], [5]]
    ∧ condRun addOne subOne false [3, 4] = [2, 3]
    ∧ vmap_cond addOne subOne [false] [[3], [4]] = [[2], [3]]
    ∧ (vmap_loop ltTen addOne 15 [] [VArg.tensor [0] [0]]).1
        = .error .condTupleNoAny :=
  ⟨rfl, rfl, rfl, rfl, rfl, rfl, rfl, rfl, rfl, rfl, rfl⟩

/-- C2: at operand counts 2..9 the batched loop's masked updates give
every lane exactly the value the direct executor computes for that lane
alone (the lane stops changing once its own predicate goes false); at
operand count 1 the spec's three-lane divergence example (lanes 9, 8, 7
under x < 10, stopping after 1, 2, 3 iterations) instead fails on the
tuple-valued re-evaluated condition. -/
theorem c2_vmap_lane_correctness (c : List Int → Bool) (b : List Int → List Int)
    (n m fuel : Nat) (xs ys : List (List Int))
    (hlen : xs.length = n) (h2 : 2 ≤ n) (h9 : n ≤ 9) (hu : Uniform m xs)
    (hb : ∀ l : List Int, l.length = n → (b l).length = n)
    (hok : (vmap_loop c b fuel [] (xs.map (fun l => VArg.tensor [0] l))).1 = .ok ys) :
    (∀ j, j < m → loop c b fuel (lane xs j) = .ok (lane ys j))
    ∧ (vmap_loop ltTen addOne 9 [] [VArg.tensor [0] [9, 8, 7]]).1
        = .error .condTupleNoAny := by
  constructor
  · have hrun : vmapLoopProc c b fuel xs = .ok ys := by
      rw [← vmap_loop_run c b fuel xs (by omega) (by omega)]
      exact hok
    have hne : xs ≠ [] := by
      apply List.ne_nil_of_length_pos
      omega
    exact vmapLoopProc_lane c b n m hb fuel xs ys hlen hne hu hrun
  · rfl

theorem c2_vmap_lane_correctness_witness :
    (∀ j, j < 2 → loop ltTen addOne 12 (lane [[0, 5], [100, 200]] j)
        = .ok (lane [[10, 10], [110, 205]] j))
    ∧ (vmap_loop ltTen addOne 9 [] [VArg.tensor [0] [9, 8, 7]]).1
        = .error .condTupleNoAny :=
  c2_vmap_lane_correctness ltTen addOne 2 2 12 [[0, 5], [100, 200]] [[10, 10], [110, 205]]
    rfl (by decide) (by decide) (by unfold Uniform; decide)
    (fun l hl => by simp [addOne, hl]) (by decide)

/-- C3: the stateful specialized loops agree at operand counts 2 and 4
(evaluate condition, loop while true running body then re-evaluating the
condition, returning the pair of final state and operands), but at
operand count 3 the in-loop re-evaluation `cond_fn(state, xs)` passes
the 3-operand tuple as a single positional argument instead of
unpacking, so the call fails with an arity error (3 expected, 1 given)
as soon as the body has run once; the unpacked re-evaluation every other
arity uses would have returned the expected pair. -/
theorem c3_stateful_arity3_divergence :
    trace_loop_state sCond sBody 5 [("steps", 0)] [0, 5, 7] = .error (.callArity 3 1)
    ∧ trace_loop_state sCond sBody 5 [("steps", 0)] [0, 5] = .ok ([("steps", 3)], [3, 8])
    ∧ trace_loop_state sCond sBody 5 [("steps", 0)] [0, 5, 7, 9]
        = .ok ([("steps", 3)], [3, 8, 10, 12])
    ∧ stateLoopProc (callStateFn 3 sCond) (callStateFn 3 sBody) (fun xs => xs.map Val.ten)
        5 [("steps", 0)] [0, 5, 7] = .ok ([("steps", 3)], [3, 8, 10]) :=
  ⟨rfl, rfl, rfl, rfl⟩

/-- C4: under batched execution of cond, both branch functions are
invoked exactly once per call whatever the per-lane predicates are, and
every lane of the result is the true-branch output where that lane's
predicate holds and the false-branch output elsewhere. -/
theorem c4_vmap_cond_once_and_select (t f : List Int → List Int) (pred : List Bool)
    (xs : List (List Int)) (m k : Nat) (hu : Uniform m xs) (hne : xs ≠ [])
    (hp : pred.length = m)
    (ht : ∀ l : List Int, l.length = xs.length → (t l).length = k)
    (hf : ∀ l : List Int, l.length = xs.length → (f l).length = k) :
    (∀ tc fc, (vmap_cond_counted t f pred xs tc fc).2 = (tc + 1, fc + 1)
      ∧ (vmap_cond_counted t f pred xs tc fc).1 = vmap_cond t f pred xs)
    ∧ (∀ j, j < m → lane (vmap_cond t f pred xs) j
        = condRun t f (pred.getD j false) (lane xs j)) :=
  ⟨fun _ _ => ⟨rfl, rfl⟩, fun j hj => lane_vmap_cond t f pred xs hu hne hp ht hf j hj⟩

theorem c4_vmap_cond_once_and_select_witness :
    (∀ tc fc, (vmap_cond_counted addOne subOne [true, false] [[1, 2], [10, 20]] tc fc).2
        = (tc + 1, fc + 1)
      ∧ (vmap_cond_counted addOne subOne [true, false] [[1, 2], [10, 20]] tc fc).1
        = vmap_cond addOne subOne [true, false] [[1, 2], [10, 20]])
    ∧ (∀ j, j < 2 → lane (vmap_cond addOne subOne [true, false] [[1, 2], [10, 20]]) j
        = condRun addOne subOne ([true, false].getD j false)
            (lane [[1, 2], [10, 20]] j)) :=
  c4_vmap_cond_once_and_select addOne subOne [true, false] [[1, 2], [10, 20]] 2 2
    (by unfold Uniform; decide) (by decide) rfl
    (fun l hl => by simp [addOne, hl]) (fun l hl => by simp [subOne, hl])

/-- C5: a successful direct loop run is exactly the iteration of the
body that kept running while the condition held and returned the
operands the moment it failed; when the condition is false at entry the
inputs come back unchanged and the result does not depend on the body
at all (it was never invoked). -/
theorem c5_direct_loop_characterization {α : Type} (c : List α → Bool)
    (b b2 : List α → List α) (fuel : Nat) (xs : List α) :
    (∀ ys, loop c b fuel xs = .ok ys →
      ∃ t, t ≤ fuel ∧ ys = b^[t] xs ∧ (∀ s, s < t → c (b^[s] xs) = true) ∧ c ys = false)
    ∧ (c xs = false → loop c b fuel xs = .ok xs ∧ loop c b2 fuel xs = .ok xs) :=
  ⟨fun ys hok => loop_characterize c b fuel xs ys hok,
   fun hc => ⟨loop_of_cond_false c b xs hc fuel, loop_of_cond_false c b2 xs hc fuel⟩⟩

/-- C6: under both signature derivations — the trace-mode key
(rank, dtype, device per operand) and the batched-mode key (batch-axis
descriptor, rank, dtype, device per operand) — a first call builds and
stores the specialized procedure, a second call whose operands share the
same signature is a pure cache hit (no build, cache unchanged), and a
call with a structurally different signature builds and stores a second,
independent entry. -/
theorem c6_cache_builds_once_per_signature
    (xs ys zs : List VTensor) (c : CacheState (List (Nat × String × String)))
    (dims : List (List Nat)) (us vs ws : List VTensor)
    (d : CacheState (List (List Nat × Nat × String × String)))
    (hk : traceKey xs ∉ c.entries) (hyx : traceKey ys = traceKey xs)
    (hzx : traceKey zs ≠ traceKey xs) (hz : traceKey zs ∉ c.entries)
    (hvk : vmapKey dims us ∉ d.entries) (hvu : vmapKey dims vs = vmapKey dims us)
    (hvw : vmapKey dims ws ≠ vmapKey dims us) (hw : vmapKey dims ws ∉ d.entries) :
    ((cacheFetch (traceKey xs) c).1 = true
      ∧ (cacheFetch (traceKey xs) c).2.builds = c.builds + 1
      ∧ cacheFetch (traceKey ys) (cacheFetch (traceKey xs) c).2
          = (false, (cacheFetch (traceKey xs) c).2)
      ∧ (cacheFetch (traceKey zs) (cacheFetch (traceKey xs) c).2).1 = true
      ∧ (cacheFetch (traceKey zs) (cacheFetch (traceKey xs) c).2).2.builds = c.builds + 2
      ∧ traceKey xs ∈ (cacheFetch (traceKey zs) (cacheFetch (traceKey xs) c).2).2.entries
      ∧ traceKey zs ∈ (cacheFetch (traceKey zs) (cacheFetch (traceKey xs) c).2).2.entries)
    ∧ ((cacheFetch (vmapKey dims us) d).1 = true
      ∧ (cacheFetch (vmapKey dims us) d).2.builds = d.builds + 1
      ∧ cacheFetch (vmapKey dims vs) (cacheFetch (vmapKey dims us) d).2
          = (false, (cacheFetch (vmapKey dims us) d).2)
      ∧ (cacheFetch (vmapKey dims ws) (cacheFetch (vmapKey dims us) d).2).1 = true
      ∧ (cacheFetch (vmapKey dims ws) (cacheFetch (vmapKey dims us) d).2).2.builds
          = d.builds + 2) := by
  obtain ⟨a1, a2, a3, a4⟩ :=
    cacheFetch_once (traceKey xs) (traceKey ys) (traceKey zs) c hk hyx hzx
  obtain ⟨b1, b2, b3, b4⟩ :=
    cacheFetch_once (vmapKey dims us) (vmapKey dims vs) (vmapKey dims ws) d hvk hvu hvw
  obtain ⟨a5, a6, a7, a8⟩ := a4 hz
  obtain ⟨b5, b6, _, _⟩ := b4 hw
  exact ⟨⟨a1, a2, a3, a5, a6, a7, a8⟩, b1, b2, b3, b5, b6⟩

theorem c6_cache_builds_once_per_signature_witness :
    ((cacheFetch (traceKey [⟨1, "float32", "cpu", [1, 2]⟩]) ⟨[], 0⟩).1 = true
      ∧ (cacheFetch (traceKey [⟨1, "float32", "cpu", [1, 2]⟩]) ⟨[], 0⟩).2.builds = 0 + 1
      ∧ cacheFetch (traceKey [⟨1, "float32", "cpu", [7, 8]⟩])
            (cacheFetch (traceKey [⟨1, "float32", "cpu", [1, 2]⟩]) ⟨[], 0⟩).2
          = (false, (cacheFetch (traceKey [⟨1, "float32", "cpu", [1, 2]⟩]) ⟨[], 0⟩).2)
      ∧ (cacheFetch (traceKey [⟨2, "float32", "cpu", [3]⟩])
            (cacheFetch (traceKey [⟨1, "float32", "cpu", [1, 2]⟩]) ⟨[], 0⟩).2).1 = true
      ∧ (cacheFetch (traceKey [⟨2, "float32", "cpu", [3]⟩])
            (cacheFetch (traceKey [⟨1, "float32", "cpu", [1, 2]⟩]) ⟨[], 0⟩).2).2.builds
          = 0 + 2
      ∧ traceKey [⟨1, "float32", "cpu", [1, 2]⟩]
          ∈ (cacheFetch (traceKey [⟨2, "float32", "cpu", [3]⟩])
            (cacheFetch (traceKey [⟨1, "float32", "cpu", [1, 2]⟩]) ⟨[], 0⟩).2).2.entries
      ∧ traceKey [⟨2, "float32", "cpu", [3]⟩]
          ∈ (cacheFetch (traceKey [⟨2, "float32", "cpu", [3]⟩])
            (cacheFetch (traceKey [⟨1, "float32", "cpu", [1, 2]⟩]) ⟨[], 0⟩).2).2.entries)
    ∧ ((cacheFetch (vmapKey [[0]] [⟨1, "float32", "cpu", [1]⟩]) ⟨[], 0⟩).1 = true
      ∧ (cacheFetch (vmapKey [[0]] [⟨1, "float32", "cpu", [1]⟩]) ⟨[], 0⟩).2.builds = 0 + 1
      ∧ cacheFetch (vmapKey [[0]] [⟨1, "float32", "cpu", [9]⟩])
            (cacheFetch (vmapKey [[0]] [⟨1, "float32", "cpu", [1]⟩]) ⟨[], 0⟩).2
          = (false, (cacheFetch (vmapKey [[0]] [⟨1, "float32", "cpu", [1]⟩]) ⟨[], 0⟩).2)
      ∧ (cacheFetch (vmapKey [[0]] [⟨1, "int64", "cpu", [1]⟩])
            (cacheFetch (vmapKey [[0]] [⟨1, "float32", "cpu", [1]⟩]) ⟨[], 0⟩).2).1 = true
      ∧ (cacheFetch (vmapKey [[0]] [⟨1, "int64", "cpu", [1]⟩])
            (cacheFetch (vmapKey [[0]] [⟨1, "float32", "cpu", [1]⟩]) ⟨[], 0⟩).2).2.builds
          = 0 + 2) :=
  c6_cache_builds_once_per_signature
    [⟨1, "float32", "cpu", [1, 2]⟩] [⟨1, "float32", "cpu", [7, 8]⟩]
    [⟨2, "float32", "cpu", [3]⟩] ⟨[], 0⟩
    [[0]] [⟨1, "float32", "cpu", [1]⟩] [⟨1, "float32", "cpu", [9]⟩]
    [⟨1, "int64", "cpu", [1]⟩] ⟨[], 0⟩
    (by decide) (by decide) (by decide) (by decide)
    (by decide) (by decide) (by decide) (by decide)

/-- C7: constructing with the same condition/body identity pair twice
returns the very same tracer with the very same cache — the second
call's stateful flag is ignored — while a different identity pair yields
a distinct instance. -/
theorem c7_instance_cache_dedup (cache : List (FnPair × Tracer))
    (cid bid cid2 bid2 : Nat) (b1 b2 b3 : Bool)
    (hwf : WFCache cache) (hne : (cid2, bid2) ≠ (cid, bid)) :
    get_or_create (get_or_create cache cid bid b1).2 cid bid b2
      = ((get_or_create cache cid bid b1).1, (get_or_create cache cid bid b1).2)
    ∧ (get_or_create (get_or_create cache cid bid b1).2 cid2 bid2 b3).1
      ≠ (get_or_create cache cid bid b1).1 := by
  constructor
  · exact get_or_create_hit _ cid bid b2 _ (get_or_create_registers cache cid bid b1)
  · intro heq
    have hwf1 : WFCache (get_or_create cache cid bid b1).2 :=
      wf_get_or_create cache cid bid b1 hwf
    have h1 := get_or_create_ids (get_or_create cache cid bid b1).2 cid2 bid2 b3 hwf1
    have h2 := get_or_create_ids cache cid bid b1 hwf
    rw [heq] at h1
    apply hne
    rw [Prod.ext_iff]
    exact ⟨h1.1.symm.trans h2.1, h1.2.symm.trans h2.2⟩

theorem c7_instance_cache_dedup_witness :
    get_or_create (get_or_create [] 1 2 true).2 1 2 false
      = ((get_or_create [] 1 2 true).1, (get_or_create [] 1 2 true).2)
    ∧ (get_or_create (get_or_create [] 1 2 true).2 1 3 true).1
      ≠ (get_or_create [] 1 2 true).1 :=
  c7_instance_cache_dedup [] 1 2 1 3 true false true
    (fun p t h => by simp [findPair] at h) (by decide)

/-- C8: invoking with 10 operands fails at once with the arity error
naming the fixed maximum 9 and the requested count 10, on the
trace-compiled path and on the batched path alike; invoking with exactly
9 operands never raises an arity error. -/
theorem c8_arity_bound_nine {α : Type} [Inhabited α] (c : List α → Bool)
    (b : List α → List α) (fuel : Nat) (xs9 xs10 : List α)
    (a9 a10 : List (VArg α)) :
    (xs10.length = 10 → trace_loop c b fuel xs10 = .error (.unsupportedArity 9 10))
    ∧ (xs9.length = 9 → ∀ l g, trace_loop c b fuel xs9 ≠ .error (.unsupportedArity l g))
    ∧ (a10.length = 10 → (∀ a ∈ a10, isTensorArg a = true) →
        (vmap_loop c b fuel [] a10).1 = .error (.unsupportedArity 9 10))
    ∧ (a9.length = 9 → (∀ a ∈ a9, isTensorArg a = true) →
        ∀ l g, (vmap_loop c b fuel [] a9).1 ≠ .error (.unsupportedArity l g)) := by
  refine ⟨?_, ?_, ?_, ?_⟩
  · intro h
    simp [trace_loop, h]
  · intro h l g
    have heq : trace_loop c b fuel xs9 = loopProc c b fuel xs9 := by
      unfold trace_loop
      rw [loops_dict_mem c b xs9.length (by omega) (by omega)]
      simp [h]
    rw [heq]
    exact loopProc_no_arity c b fuel xs9 l g
  · intro h hall
    obtain ⟨ps, hck, hlen⟩ := checkTensors_ok a10 hall
    have hpl : (ps.map (fun p => p.2)).length = 10 := by
      rw [List.length_map, hlen, h]
    unfold vmap_loop
    rw [hck]
    simp [hpl]
  · intro h hall l g
    obtain ⟨ps, hck, hlen⟩ := checkTensors_ok a9 hall
    have hpl : (ps.map (fun p => p.2)).length = 9 := by
      rw [List.length_map, hlen, h]
    have hdict : vmap_loops_dict c b 9 = some (vmapLoopProc c b) :=
      vmap_loops_dict_mem c b 9 (by omega) (by omega)
    have heq : (vmap_loop c b fuel [] a9).1
        = vmapLoopProc c b fuel (ps.map (fun p => p.2)) := by
      unfold vmap_loop
      rw [hck]
      simp [hdict, hpl]
    rw [heq]
    exact vmapLoopProc_no_arity c b fuel _ l g

/-- C9 (amended): a non-tensor operand makes `vmap_loop` fail at once
with a type-mismatch error that carries the offending argument's type
name, and the cache is returned untouched — no compiled procedure is
built or stored. -/
theorem c9_vmap_type_error {α : Type} [Inhabited α] (c : List α → Bool)
    (b : List α → List α) (fuel : Nat) (cache : VCache) (args : List (VArg α))
    (p : Nat) (ty : String) (h : findOffender args = some (p, ty)) :
    vmap_loop c b fuel cache args = (.error (.typeMismatch ty), cache) := by
  unfold vmap_loop
  rw [checkTensors_offender args p ty h]

theorem c9_vmap_type_error_witness :
    vmap_loop ltTen addOne 3 [[[9]]] [(VArg.tensor [0] [1] : VArg Int), VArg.other "int"]
      = (.error (.typeMismatch "int"), [[[9]]]) :=
  c9_vmap_type_error ltTen addOne 3 [[[9]]]
    [VArg.tensor [0] [1], VArg.other "int"] 1 "int" rfl

/-- C9 counterexample: two calls whose only non-tensor argument sits at
different positions (0 in the first, 1 in the second) produce the very
same error value, so the error cannot identify the offending argument's
position — it names only the offending type. -/
theorem c9_error_omits_position :
    findOffender [(VArg.other "int" : VArg Int), VArg.tensor [0] [1]] = some (0, "int")
    ∧ findOffender [(VArg.tensor [0] [1] : VArg Int), VArg.other "int"] = some (1, "int")
    ∧ vmap_loop ltTen addOne 3 [] [VArg.other "int", VArg.tensor [0] [1]]
        = vmap_loop ltTen addOne 3 [] [VArg.tensor [0] [1], VArg.other "int"]
    ∧ vmap_loop ltTen addOne 3 [] [(VArg.other "int" : VArg Int), VArg.tensor [0] [1]]
        = (.error (.typeMismatch "int"), []) :=
  ⟨rfl, rfl, rfl, rfl⟩

/-- C10: with zero operands the trace-compiled loop path passes the
arity guard (which only rules out counts above 9) and then fails on the
dict selection with a key-lookup error for key 0 — not with an arity
error, so the documented lower bound of one operand is never enforced by
a dedicated check. -/
theorem c10_zero_operands_key_error {α : Type} (c : List α → Bool)
    (b : List α → List α) (fuel : Nat) :
    trace_loop c b fuel ([] : List α) = .error (.keyLookup 0) := rfl

end Claims

end EvoxCF
